import Mathlib

/-!
Shallow embedding of `src/crm_api.py`, a single-file CRM CRUD API
(FastAPI + SQLModel over a SQLite table `cliente`).

State: the persisted `cliente` table is a list of rows in insertion order
(SQLite default rowid scan order; every freshly assigned id exceeds all
existing ids, so insertion order and rowid order coincide).

Each endpoint handler is a pure function from the table state and the
request data to a pair of (result or HTTP-style error, next table state).
FastAPI request validation (plain `pydantic` required/optional fields) and
the SQLite UNIQUE constraint on `email` (raised at commit time) are part of
the embedding, since they are part of the observable behaviour of the
program.
-/

namespace CRM

/-- The request schema `ClienteBase` after successful validation:
`nome` and `email` are required strings, `telefone` and `empresa` are
optional (absent fields default to `None`). -/
structure ClienteBase where
  nome : String
  email : String
  telefone : Option String
  empresa : Option String
deriving Repr, DecidableEq

/-- A stored row of the `cliente` table: the `ClienteBase` fields plus the
primary-key `id` assigned by the database. This also serves as the
`ClienteRead` response shape (all fields, id included). -/
structure Cliente where
  id : Int
  nome : String
  email : String
  telefone : Option String
  empresa : Option String
deriving Repr, DecidableEq

/-- The persisted state: the rows of the `cliente` table, in insertion
order. -/
structure DB where
  rows : List Cliente
deriving Repr, DecidableEq

/-- The state after startup (`create_db_and_tables` creates an empty
table). -/
def dbInit : DB := ⟨[]⟩

/-- The error outcomes an endpoint can produce. -/
inductive Err where
  /-- FastAPI rejects the request before the handler runs
  (pydantic validation failure, HTTP 422). -/
  | validationError
  /-- `create_cliente` raises HTTPException 400 "E-mail já cadastrado". -/
  | duplicateEmail
  /-- HTTPException 404 "Cliente não encontrado". -/
  | notFound
  /-- SQLite UNIQUE-constraint violation surfacing at `session.commit()`
  as an unhandled server error (HTTP 500); the session is rolled back. -/
  | integrityError
deriving Repr, DecidableEq

/-- HTTP status code of each error outcome. -/
def Err.status : Err → Nat
  | .validationError => 422
  | .duplicateEmail => 400
  | .notFound => 404
  | .integrityError => 500

/-- `session.exec(select(Cliente).where(Cliente.email == e)).first()`
truthiness: does some stored row have email `e`? -/
def emailTaken (db : DB) (e : String) : Bool :=
  db.rows.any (fun r => r.email == e)

/-- SQLite rowid assignment for `id: Optional[int] = Field(default=None,
primary_key=True)`: one more than the largest rowid currently in use. -/
def freshId (db : DB) : Int :=
  db.rows.foldr (fun r m => max r.id m) 0 + 1

/-- The row `Cliente.model_validate(cliente)` produces once the database
fills in the primary key. -/
def newRow (db : DB) (cliente : ClienteBase) : Cliente :=
  { id := freshId db
    nome := cliente.nome
    email := cliente.email
    telefone := cliente.telefone
    empresa := cliente.empresa }

/-- `POST /clientes/` — `create_cliente`: reject with 400 if a row with
the same email exists, otherwise insert one new row and return it. -/
def create_cliente (db : DB) (cliente : ClienteBase) :
    Except Err Cliente × DB :=
  if emailTaken db cliente.email then
    (.error .duplicateEmail, db)
  else
    (.ok (newRow db cliente), ⟨db.rows ++ [newRow db cliente]⟩)

/-- `GET /clientes/` — `read_clientes`: `limit` is declared
`Query(default=10, le=100)`, so FastAPI rejects only `limit > 100`.
The query `select(Cliente).offset(offset).limit(limit)` has SQLite
semantics: a negative OFFSET counts as zero, a negative LIMIT means
no upper bound. -/
def read_clientes (db : DB) (offset limit : Int) :
    Except Err (List Cliente) × DB :=
  if limit > 100 then
    (.error .validationError, db)
  else
    let skipped := db.rows.drop offset.toNat
    (.ok (if limit < 0 then skipped else skipped.take limit.toNat), db)

/-- `GET /clientes/{cliente_id}` — `read_cliente`: primary-key lookup
(`session.get(Cliente, cliente_id)`), 404 when absent. -/
def read_cliente (db : DB) (cliente_id : Int) :
    Except Err Cliente × DB :=
  match db.rows.find? (fun r => r.id == cliente_id) with
  | none => (.error .notFound, db)
  | some c => (.ok c, db)

/-- A raw `PATCH /clientes/{cliente_id}` JSON body before validation: each
field is either absent (`none`) or present with a value. A present but
null `telefone`/`empresa` is `some none`. -/
structure ClienteUpdateBody where
  nome : Option String
  email : Option String
  telefone : Option (Option String)
  empresa : Option (Option String)
deriving Repr, DecidableEq

/-- Pydantic validation of a request body against `ClienteBase`: `nome`
and `email` have no default, so the body must contain both. -/
def validClienteBase (b : ClienteUpdateBody) : Bool :=
  b.nome.isSome && b.email.isSome

/-- `db_cliente.sqlmodel_update(update_data)` where
`update_data = cliente_update.model_dump(exclude_unset=True)`: overwrite
exactly the fields present in the request, keep the rest (and the id). -/
def sqlmodel_update (c : Cliente) (b : ClienteUpdateBody) : Cliente :=
  { c with
    nome := b.nome.getD c.nome
    email := b.email.getD c.email
    telefone := b.telefone.getD c.telefone
    empresa := b.empresa.getD c.empresa }

/-- `PATCH /clientes/{cliente_id}` — `update_cliente`: FastAPI validates
the body against `ClienteBase` (422 on failure), the handler 404s on a
missing id, merges the set fields, and commits; the commit violates the
UNIQUE constraint on email exactly when another row already has the new
email, in which case the session rolls back and a 500 escapes. -/
def update_cliente (db : DB) (cliente_id : Int)
    (cliente_update : ClienteUpdateBody) : Except Err Cliente × DB :=
  if ¬ validClienteBase cliente_update then
    (.error .validationError, db)
  else
    match db.rows.find? (fun r => r.id == cliente_id) with
    | none => (.error .notFound, db)
    | some c =>
      let merged := sqlmodel_update c cliente_update
      if db.rows.any (fun r => r.id != c.id && r.email == merged.email) then
        (.error .integrityError, db)
      else
        (.ok merged,
          ⟨db.rows.map (fun r => if r.id == cliente_id then merged else r)⟩)

/-- `DELETE /clientes/{cliente_id}` — `delete_cliente`: 404 on a missing
id, otherwise remove the row and answer with the success message. -/
def delete_cliente (db : DB) (cliente_id : Int) :
    Except Err String × DB :=
  match db.rows.find? (fun r => r.id == cliente_id) with
  | none => (.error .notFound, db)
  | some _ =>
    (.ok "Cliente deletado com sucesso",
      ⟨db.rows.filter (fun r => r.id != cliente_id)⟩)

/-- One API request: the five operations of the service. -/
inductive Op where
  | create (cliente : ClienteBase)
  | list (offset limit : Int)
  | get (cliente_id : Int)
  | update (cliente_id : Int) (body : ClienteUpdateBody)
  | del (cliente_id : Int)
deriving Repr

/-- Effect of one request on the stored table. -/
def stepDB (db : DB) : Op → DB
  | .create c => (create_cliente db c).2
  | .list o l => (read_clientes db o l).2
  | .get i => (read_cliente db i).2
  | .update i b => (update_cliente db i b).2
  | .del i => (delete_cliente db i).2

/-- Stored table after a sequence of requests. -/
def runOps (db : DB) (ops : List Op) : DB :=
  ops.foldl stepDB db

/-- No two stored rows share an email. -/
def emailsUnique (db : DB) : Prop :=
  (db.rows.map Cliente.email).Nodup

/-- No two stored rows share a primary key. -/
def idsUnique (db : DB) : Prop :=
  (db.rows.map Cliente.id).Nodup

/-- Both database invariants together: primary keys and emails are
pairwise distinct. -/
def Inv (db : DB) : Prop := idsUnique db ∧ emailsUnique db

/-- The state reached from startup by fifteen create requests with
distinct emails, used to exercise pagination. -/
def db15 : DB :=
  runOps dbInit ((List.range 15).map (fun i =>
    Op.create ⟨"Cliente " ++ toString i, "cliente" ++ toString i ++ "@x.com",
      none, none⟩))

/-- A small concrete state with two customers, used to instantiate the
claim theorems. -/
def exDB : DB :=
  ⟨[⟨1, "Ana", "ana@x.com", none, none⟩,
    ⟨2, "Bob", "bob@x.com", some "111", some "Acme"⟩]⟩

/-! ### Helper lemmas -/

theorem le_foldr_max (l : List Cliente) (r : Cliente) (h : r ∈ l) :
    r.id ≤ l.foldr (fun x m => max x.id m) 0 := by
  induction l with
  | nil => cases h
  | cons a t ih =>
    rcases List.mem_cons.mp h with rfl | ht
    · exact le_max_left _ _
    · exact le_trans (ih ht) (le_max_right _ _)

theorem id_lt_freshId (db : DB) (r : Cliente) (h : r ∈ db.rows) :
    r.id < freshId db := by
  have := le_foldr_max db.rows r h
  unfold freshId
  omega

theorem read_clientes_snd (db : DB) (offset limit : Int) :
    (read_clientes db offset limit).2 = db := by
  unfold read_clientes
  split <;> rfl

theorem read_cliente_snd (db : DB) (cliente_id : Int) :
    (read_cliente db cliente_id).2 = db := by
  unfold read_cliente
  split <;> rfl

theorem create_cliente_fresh (db : DB) (cliente : ClienteBase)
    (h : emailTaken db cliente.email = false) :
    create_cliente db cliente =
      (Except.ok (newRow db cliente), ⟨db.rows ++ [newRow db cliente]⟩) := by
  unfold create_cliente
  simp [h]

theorem find?_append_newRow (db : DB) (cliente : ClienteBase) :
    (db.rows ++ [newRow db cliente]).find?
      (fun r => r.id == (newRow db cliente).id) = some (newRow db cliente) := by
  rw [List.find?_append]
  have h1 : db.rows.find? (fun r => r.id == (newRow db cliente).id) = none := by
    rw [List.find?_eq_none]
    intro r hr
    have hlt := id_lt_freshId db r hr
    have hid : (newRow db cliente).id = freshId db := rfl
    simp only [hid, beq_iff_eq]
    omega
  rw [h1]
  simp [List.find?]

theorem filter_email_nil (db : DB) (e : String)
    (h : emailTaken db e = false) :
    db.rows.filter (fun r => r.email == e) = [] := by
  rw [List.filter_eq_nil_iff]
  intro r hr
  have := List.any_eq_false.mp h r hr
  exact this

theorem map_id_ite (l : List Cliente) (cid : Int) (c2 : Cliente)
    (hcid : c2.id = cid) :
    (l.map (fun r => if r.id == cid then c2 else r)).map Cliente.id =
      l.map Cliente.id := by
  rw [List.map_map]
  apply List.map_congr_left
  intro r _
  by_cases h : r.id = cid
  · simp [h, hcid]
  · simp [h]

theorem map_email_ite (l : List Cliente) (cid : Int) (c2 : Cliente) :
    (l.map (fun r => if r.id == cid then c2 else r)).map Cliente.email =
      l.map (fun r => if r.id == cid then c2.email else r.email) := by
  rw [List.map_map]
  apply List.map_congr_left
  intro r _
  by_cases h : r.id = cid
  · simp [h]
  · simp [h]

theorem nodup_map_ite (cid : Int) (c2 : Cliente) :
    ∀ l : List Cliente, (l.map Cliente.id).Nodup →
      (l.map Cliente.email).Nodup →
      (∀ r ∈ l, r.email = c2.email → r.id = cid) →
      (l.map (fun r => if r.id == cid then c2.email else r.email)).Nodup := by
  intro l
  induction l with
  | nil =>
    intro _ _ _
    simp
  | cons a t ih =>
    intro hid hem hfresh
    simp only [List.map_cons, List.nodup_cons] at hid hem ⊢
    obtain ⟨hida, hidt⟩ := hid
    obtain ⟨hema, hemt⟩ := hem
    refine ⟨?_, ih hidt hemt
      (fun r hr => hfresh r (List.mem_cons_of_mem a hr))⟩
    intro hmem
    obtain ⟨x, hx, hgx⟩ := List.mem_map.mp hmem
    by_cases hax : a.id = cid
    · by_cases hxx : x.id = cid
      · exact hida (List.mem_map.mpr ⟨x, hx, by rw [hxx, hax]⟩)
      · have hxe : x.email = c2.email := by
          simpa [hxx, hax] using hgx
        exact hxx (hfresh x (List.mem_cons_of_mem a hx) hxe)
    · by_cases hxx : x.id = cid
      · have hae : a.email = c2.email := by
          simpa [hxx, hax] using hgx.symm
        exact hax (hfresh a (List.mem_cons_self a t) hae)
      · apply hema
        refine List.mem_map.mpr ⟨x, hx, ?_⟩
        simpa [hxx, hax] using hgx

theorem Inv_create (db : DB) (cliente : ClienteBase) (h : Inv db) :
    Inv (create_cliente db cliente).2 := by
  by_cases he : emailTaken db cliente.email
  · unfold create_cliente
    rw [if_pos he]
    exact h
  · have he2 : emailTaken db cliente.email = false := Bool.eq_false_iff.mpr he
    rw [create_cliente_fresh db cliente he2]
    constructor
    · show ((db.rows ++ [newRow db cliente]).map Cliente.id).Nodup
      rw [List.map_append, List.nodup_append]
      refine ⟨h.1, by simp, ?_⟩
      intro x hx hy
      simp only [List.map_cons, List.map_nil, List.mem_singleton] at hy
      obtain ⟨r, hr, hrid⟩ := List.mem_map.mp hx
      have hlt := id_lt_freshId db r hr
      have hxid : x = freshId db := hy
      rw [← hrid] at hxid
      omega
    · show ((db.rows ++ [newRow db cliente]).map Cliente.email).Nodup
      rw [List.map_append, List.nodup_append]
      refine ⟨h.2, by simp, ?_⟩
      intro x hx hy
      simp only [List.map_cons, List.map_nil, List.mem_singleton] at hy
      obtain ⟨r, hr, hre⟩ := List.mem_map.mp hx
      have hne := List.any_eq_false.mp he2 r hr
      simp only [beq_iff_eq] at hne
      apply hne
      rw [hre, hy]
      rfl

theorem update_cliente_invalid (db : DB) (cid : Int) (b : ClienteUpdateBody)
    (hv : validClienteBase b = false) :
    update_cliente db cid b = (Except.error Err.validationError, db) := by
  unfold update_cliente
  rw [if_pos (by simp [hv])]

theorem update_cliente_missing (db : DB) (cid : Int) (b : ClienteUpdateBody)
    (hv : validClienteBase b = true)
    (hf : db.rows.find? (fun r => r.id == cid) = none) :
    update_cliente db cid b = (Except.error Err.notFound, db) := by
  unfold update_cliente
  rw [if_neg (by simp [hv]), hf]

theorem update_cliente_conflict (db : DB) (cid : Int) (b : ClienteUpdateBody)
    (c : Cliente)
    (hv : validClienteBase b = true)
    (hf : db.rows.find? (fun r => r.id == cid) = some c)
    (hdup : db.rows.any
      (fun r => r.id != c.id &&
        r.email == (sqlmodel_update c b).email) = true) :
    update_cliente db cid b = (Except.error Err.integrityError, db) := by
  unfold update_cliente
  rw [if_neg (by simp [hv]), hf]
  simp [hdup]

theorem update_cliente_merge (db : DB) (cid : Int) (b : ClienteUpdateBody)
    (c : Cliente)
    (hv : validClienteBase b = true)
    (hf : db.rows.find? (fun r => r.id == cid) = some c)
    (hdup : db.rows.any
      (fun r => r.id != c.id &&
        r.email == (sqlmodel_update c b).email) = false) :
    update_cliente db cid b =
      (Except.ok (sqlmodel_update c b),
        ⟨db.rows.map
          (fun r => if r.id == cid then sqlmodel_update c b else r)⟩) := by
  unfold update_cliente
  rw [if_neg (by simp [hv]), hf]
  simp [hdup]

theorem Inv_update (db : DB) (cid : Int) (b : ClienteUpdateBody)
    (h : Inv db) : Inv (update_cliente db cid b).2 := by
  by_cases hv : validClienteBase b
  case neg =>
    rw [update_cliente_invalid db cid b (Bool.eq_false_iff.mpr hv)]
    exact h
  case pos =>
    cases hf : db.rows.find? (fun r => r.id == cid) with
    | none =>
      rw [update_cliente_missing db cid b hv hf]
      exact h
    | some c =>
      have hcid : c.id = cid := by
        have := List.find?_some hf
        simpa using this
      by_cases hdup : db.rows.any
          (fun r => r.id != c.id && r.email == (sqlmodel_update c b).email)
      · rw [update_cliente_conflict db cid b c hv hf hdup]
        exact h
      · have hany : db.rows.any
            (fun r => r.id != c.id &&
              r.email == (sqlmodel_update c b).email) = false :=
          Bool.eq_false_iff.mpr hdup
        rw [update_cliente_merge db cid b c hv hf hany]
        have hfresh : ∀ r ∈ db.rows,
            r.email = (sqlmodel_update c b).email → r.id = cid := by
          intro r hr hre
          have hnot := List.any_eq_false.mp hany r hr
          simp only [Bool.and_eq_true, bne_iff_ne, ne_eq, beq_iff_eq,
            not_and] at hnot
          by_cases hrc : r.id = c.id
          · rw [hrc, hcid]
          · exact absurd hre (hnot hrc)
        have hmid : (sqlmodel_update c b).id = cid := hcid
        constructor
        · show ((db.rows.map
              (fun r => if r.id == cid then sqlmodel_update c b else r)).map
                Cliente.id).Nodup
          rw [map_id_ite db.rows cid (sqlmodel_update c b) hmid]
          exact h.1
        · show ((db.rows.map
              (fun r => if r.id == cid then sqlmodel_update c b else r)).map
                Cliente.email).Nodup
          rw [map_email_ite]
          exact nodup_map_ite cid (sqlmodel_update c b) db.rows h.1 h.2 hfresh

theorem Inv_delete (db : DB) (cid : Int) (h : Inv db) :
    Inv (delete_cliente db cid).2 := by
  unfold delete_cliente
  cases hf : db.rows.find? (fun r => r.id == cid) with
  | none => exact h
  | some c =>
    constructor
    · exact List.Nodup.sublist
        (List.Sublist.map Cliente.id (List.filter_sublist db.rows)) h.1
    · exact List.Nodup.sublist
        (List.Sublist.map Cliente.email (List.filter_sublist db.rows)) h.2

theorem Inv_stepDB (db : DB) (op : Op) (h : Inv db) : Inv (stepDB db op) := by
  cases op with
  | create c => exact Inv_create db c h
  | list o l =>
    show Inv (read_clientes db o l).2
    rw [read_clientes_snd]
    exact h
  | get i =>
    show Inv (read_cliente db i).2
    rw [read_cliente_snd]
    exact h
  | update i b => exact Inv_update db i b h
  | del i => exact Inv_delete db i h

theorem Inv_runOps (ops : List Op) :
    ∀ db : DB, Inv db → Inv (runOps db ops) := by
  induction ops with
  | nil =>
    intro db h
    exact h
  | cons op t ih =>
    intro db h
    show Inv (runOps (stepDB db op) t)
    exact ih _ (Inv_stepDB db op h)

/-! ### Claim theorems -/

/-- C2: email uniqueness is an invariant of the stored state — after any
sequence of Create, List, Get, Update and Delete requests issued from the
startup state, no two stored rows share an email. (Create pre-checks the
email; Update holds because the UNIQUE column constraint makes the commit
of a conflicting merge fail and roll back.) -/
theorem C2_email_uniqueness_invariant (ops : List Op) :
    emailsUnique (runOps dbInit ops) :=
  (Inv_runOps ops dbInit ⟨List.nodup_nil, List.nodup_nil⟩).2

/-- C10: Get and List are read-only: for every stored state and every
input, `read_clientes` and `read_cliente` leave the customer table exactly
unchanged, whether the call succeeds or fails. -/
theorem C10_reads_leave_state_unchanged (db : DB)
    (offset limit cliente_id : Int) :
    (read_clientes db offset limit).2 = db ∧
    (read_cliente db cliente_id).2 = db :=
  ⟨read_clientes_snd db offset limit, read_cliente_snd db cliente_id⟩

/-- C3 (counterexample): the claim says every `limit` outside 1..100 is
rejected at the boundary, but `limit = 0` lies outside 1..100 and
`read_clientes` accepts it, answering with an empty page. -/
theorem C3_counterexample :
    ¬ ((1:Int) ≤ 0) ∧ (read_clientes dbInit 0 0).1 = Except.ok [] :=
  ⟨by decide, rfl⟩

/-- C3 (amended): `read_clientes` rejects exactly the limits above 100 —
in particular `limit = 101` — and accepts every `limit ≤ 100`, including
0 and negative values, since no lower bound is enforced; for every
accepted limit (hence for every offset ≥ 0 and limit in 1..100) it
answers with a page and never fails. -/
theorem C3_limit_validation (db : DB) (offset limit : Int) :
    (read_clientes db offset 101).1 = Except.error Err.validationError ∧
    ((read_clientes db offset limit).1 = Except.error Err.validationError ↔
      100 < limit) ∧
    (limit ≤ 100 →
      (read_clientes db offset limit).1 =
        Except.ok (if limit < 0 then db.rows.drop offset.toNat
                   else (db.rows.drop offset.toNat).take limit.toNat)) := by
  refine ⟨?_, ?_, ?_⟩
  · simp [read_clientes]
  · unfold read_clientes
    by_cases h : limit > 100
    · simp [h]
    · simp [h]
  · intro h
    unfold read_clientes
    rw [if_neg (by omega)]

/-- C3 (witness for the amended theorem): at `limit = 10` on the startup
state the hypothesis `limit ≤ 100` holds and listing succeeds. -/
theorem C3_limit_validation_witness :
    (10:Int) ≤ 100 ∧
    (read_clientes dbInit 0 10).1 =
      Except.ok (if (10:Int) < 0 then dbInit.rows.drop (0:Int).toNat
                 else (dbInit.rows.drop (0:Int).toNat).take (10:Int).toNat) :=
  ⟨by decide, (C3_limit_validation dbInit 0 10).2.2 (by decide)⟩

/-- C1 (code evaluated at the failing input): a PATCH body carrying only
`telefone` is rejected by request validation with HTTP 422 — the body is
validated against `ClienteBase`, whose `nome` and `email` are required —
so the documented phone-only partial update never reaches the merge, and
the stored state is unchanged. -/
theorem C1_phone_only_update_rejected :
    update_cliente ⟨[⟨1, "Ana", "ana@x.com", none, none⟩]⟩ 1
        ⟨none, none, some (some "999"), none⟩ =
      (Except.error Err.validationError,
        ⟨[⟨1, "Ana", "ana@x.com", none, none⟩]⟩) ∧
    Err.validationError.status = 422 :=
  ⟨rfl, rfl⟩

/-- C4: `create_cliente` fails with `duplicateEmail` (HTTP 400) exactly
when a stored row already has the requested email; a failing call leaves
the state unchanged, and otherwise exactly one new row is appended, it
carries the freshly assigned id, and the full row is returned. -/
theorem C4_create_contract (db : DB) (cliente : ClienteBase) :
    ((create_cliente db cliente).1 = Except.error Err.duplicateEmail ↔
      emailTaken db cliente.email = true) ∧
    ((create_cliente db cliente).1 = Except.error Err.duplicateEmail →
      (create_cliente db cliente).2 = db) ∧
    (emailTaken db cliente.email = false →
      create_cliente db cliente =
        (Except.ok (newRow db cliente),
          ⟨db.rows ++ [newRow db cliente]⟩)) := by
  by_cases h : emailTaken db cliente.email
  · unfold create_cliente
    simp [h]
  · have hc := create_cliente_fresh db cliente (by simpa using h)
    rw [hc]
    simp_all

/-- C4 (witness): on the startup state the email is fresh, so the create
succeeds and appends the one new row. -/
theorem C4_create_contract_witness :
    emailTaken dbInit "bob@x.com" = false ∧
    create_cliente dbInit ⟨"Bob", "bob@x.com", none, none⟩ =
      (Except.ok (newRow dbInit ⟨"Bob", "bob@x.com", none, none⟩),
        ⟨dbInit.rows ++ [newRow dbInit ⟨"Bob", "bob@x.com", none, none⟩]⟩) :=
  ⟨by decide,
    (C4_create_contract dbInit ⟨"Bob", "bob@x.com", none, none⟩).2.2
      (by decide)⟩

/-- C5: round trip — when the requested email is not yet stored, Create
succeeds returning the new row, and Get with the id Create returned
yields exactly that row. -/
theorem C5_create_then_get_round_trip (db : DB) (cliente : ClienteBase)
    (h : emailTaken db cliente.email = false) :
    (create_cliente db cliente).1 = Except.ok (newRow db cliente) ∧
    (read_cliente (create_cliente db cliente).2 (newRow db cliente).id).1 =
      Except.ok (newRow db cliente) := by
  rw [create_cliente_fresh db cliente h]
  refine ⟨rfl, ?_⟩
  unfold read_cliente
  rw [show (DB.mk (db.rows ++ [newRow db cliente])).rows =
      db.rows ++ [newRow db cliente] from rfl]
  rw [find?_append_newRow]

/-- C5 (witness): creating Bob on the startup state and fetching the
returned id yields the identical record. -/
theorem C5_create_then_get_round_trip_witness :
    emailTaken dbInit "bob@x.com" = false ∧
    (read_cliente (create_cliente dbInit ⟨"Bob", "bob@x.com", none, none⟩).2
        (newRow dbInit ⟨"Bob", "bob@x.com", none, none⟩).id).1 =
      Except.ok (newRow dbInit ⟨"Bob", "bob@x.com", none, none⟩) :=
  ⟨by decide,
    (C5_create_then_get_round_trip dbInit ⟨"Bob", "bob@x.com", none, none⟩
      (by decide)).2⟩

/-- C6: Create is atomic on error — after a first create with a fresh
email, a second create with the same email fails with `duplicateEmail`,
the failed call changes nothing, and the stored state holds exactly one
row with that email. -/
theorem C6_second_create_same_email (db : DB) (c1 c2 : ClienteBase)
    (h : emailTaken db c1.email = false) (he : c2.email = c1.email) :
    (create_cliente (create_cliente db c1).2 c2).1 =
      Except.error Err.duplicateEmail ∧
    (create_cliente (create_cliente db c1).2 c2).2 =
      (create_cliente db c1).2 ∧
    ((create_cliente db c1).2.rows.filter
      (fun r => r.email == c1.email)).length = 1 := by
  rw [create_cliente_fresh db c1 h]
  have htaken :
      emailTaken ⟨db.rows ++ [newRow db c1]⟩ c2.email = true := by
    unfold emailTaken
    rw [List.any_eq_true]
    exact ⟨newRow db c1, by simp [newRow, he]⟩
  refine ⟨?_, ?_, ?_⟩
  · unfold create_cliente
    rw [htaken]
    rfl
  · unfold create_cliente
    rw [htaken]
    rfl
  · rw [show (DB.mk (db.rows ++ [newRow db c1])).rows =
        db.rows ++ [newRow db c1] from rfl]
    rw [List.filter_append, filter_email_nil db c1.email h]
    simp [newRow]

/-- C6 (witness): two creates with the email "eve@x.com" on the startup
state — the second fails, leaves state unchanged, and exactly one stored
row carries that email. -/
theorem C6_second_create_same_email_witness :
    emailTaken dbInit "eve@x.com" = false ∧
    (create_cliente
        (create_cliente dbInit ⟨"Eva", "eve@x.com", none, none⟩).2
        ⟨"Eve", "eve@x.com", some "222", none⟩).1 =
      Except.error Err.duplicateEmail :=
  ⟨by decide,
    (C6_second_create_same_email dbInit ⟨"Eva", "eve@x.com", none, none⟩
      ⟨"Eve", "eve@x.com", some "222", none⟩ (by decide) (by decide)).1⟩

/-- C7: when no stored row has the requested id, Get, Update (with a body
that passes request validation), and Delete all fail with `notFound`
(HTTP 404) — however many other records exist — and each failed call
leaves the state unchanged. -/
theorem C7_missing_id_not_found (db : DB) (cliente_id : Int)
    (body : ClienteUpdateBody)
    (hid : ∀ r ∈ db.rows, r.id ≠ cliente_id)
    (hb : validClienteBase body = true) :
    read_cliente db cliente_id = (Except.error Err.notFound, db) ∧
    update_cliente db cliente_id body = (Except.error Err.notFound, db) ∧
    delete_cliente db cliente_id = (Except.error Err.notFound, db) := by
  have hf : db.rows.find? (fun r => r.id == cliente_id) = none := by
    rw [List.find?_eq_none]
    intro r hr
    simp only [beq_iff_eq]
    exact hid r hr
  refine ⟨?_, ?_, ?_⟩
  · unfold read_cliente
    rw [hf]
  · unfold update_cliente
    rw [if_neg (by simp [hb])]
    rw [hf]
  · unfold delete_cliente
    rw [hf]

/-- C7 (witness): on the two-customer state, id 999999 names no row and a
validating body is given, so Get answers 404. -/
theorem C7_missing_id_not_found_witness :
    (∀ r ∈ exDB.rows, r.id ≠ 999999) ∧
    validClienteBase ⟨some "Zoe", some "zoe@x.com", none, none⟩ = true ∧
    read_cliente exDB 999999 = (Except.error Err.notFound, exDB) :=
  ⟨by decide, by decide,
    (C7_missing_id_not_found exDB 999999
      ⟨some "Zoe", some "zoe@x.com", none, none⟩
      (by decide) (by decide)).1⟩

/-- C8: Delete on an existing id answers only the success message,
removes the row permanently (hard delete: the resulting state is the old
one with every row of that id filtered out), and a subsequent Get with
the same id fails with `notFound`. -/
theorem C8_delete_then_get (db : DB) (cliente_id : Int)
    (h : (db.rows.find? (fun r => r.id == cliente_id)).isSome = true) :
    (delete_cliente db cliente_id).1 =
      Except.ok "Cliente deletado com sucesso" ∧
    (delete_cliente db cliente_id).2 =
      ⟨db.rows.filter (fun r => r.id != cliente_id)⟩ ∧
    (read_cliente (delete_cliente db cliente_id).2 cliente_id).1 =
      Except.error Err.notFound := by
  obtain ⟨c, hc⟩ := Option.isSome_iff_exists.mp h
  have hd : delete_cliente db cliente_id =
      (Except.ok "Cliente deletado com sucesso",
        ⟨db.rows.filter (fun r => r.id != cliente_id)⟩) := by
    unfold delete_cliente
    rw [hc]
  rw [hd]
  refine ⟨rfl, rfl, ?_⟩
  have hf : (db.rows.filter (fun r => r.id != cliente_id)).find?
      (fun r => r.id == cliente_id) = none := by
    rw [List.find?_eq_none]
    intro r hr
    have hne := (List.mem_filter.mp hr).2
    simp only [bne_iff_ne, ne_eq] at hne
    simp only [beq_iff_eq]
    exact hne
  unfold read_cliente
  rw [show (DB.mk (db.rows.filter (fun r => r.id != cliente_id))).rows =
      db.rows.filter (fun r => r.id != cliente_id) from rfl]
  rw [hf]

/-- C8 (witness): deleting id 2 from the two-customer state succeeds with
only the status message. -/
theorem C8_delete_then_get_witness :
    (exDB.rows.find? (fun r => r.id == 2)).isSome = true ∧
    (delete_cliente exDB 2).1 = Except.ok "Cliente deletado com sucesso" :=
  ⟨by decide, (C8_delete_then_get exDB 2 (by decide)).1⟩

/-- C9: pagination — for every state, offset ≥ 0 and limit in 1..100,
List succeeds, leaves the state unchanged, and returns at most `limit`
rows: exactly the rows after skipping the first `offset` in insertion
order. -/
theorem C9_pagination (db : DB) (offset limit : Int)
    (ho : 0 ≤ offset) (h1 : 1 ≤ limit) (h2 : limit ≤ 100) :
    (read_clientes db offset limit).1 =
      Except.ok ((db.rows.drop offset.toNat).take limit.toNat) ∧
    ((db.rows.drop offset.toNat).take limit.toNat).length ≤ limit.toNat ∧
    (read_clientes db offset limit).2 = db := by
  refine ⟨?_, ?_, read_clientes_snd db offset limit⟩
  · have hgt : ¬ (100:Int) < limit := by omega
    have hneg : ¬ limit < 0 := by omega
    simp [read_clientes, hgt, hneg]
  · rw [List.length_take]
    exact min_le_left _ _

/-- C9 (witness): after inserting 15 customers, listing with offset 0 and
limit 10 returns exactly the first 10 rows in insertion order. -/
theorem C9_pagination_witness :
    (0:Int) ≤ 0 ∧ (1:Int) ≤ 10 ∧ (10:Int) ≤ 100 ∧
    (read_clientes db15 0 10).1 =
      Except.ok ((db15.rows.drop (0:Int).toNat).take (10:Int).toNat) ∧
    ((db15.rows.drop (0:Int).toNat).take (10:Int).toNat).length = 10 :=
  ⟨by decide, by decide, by decide,
    (C9_pagination db15 0 10 (by decide) (by decide) (by decide)).1,
    by rfl⟩

end CRM
